import Mathlib

/-!
Verification development for the data pipeline of export_dashboard.py
(Streamlit dashboard for Indonesian non-oil export data).

The embedding models the loading / normalization / aggregation pipeline:
header-artifact removal, column renaming, numeric coercion, country-name
resolution, top-N selection (pandas nlargest with keep first), yearly sums
and growth rates.  Numeric cells are modelled as Option Rat: none stands
for a missing value (NaN produced by a failed numeric coercion), some q
for a parsed number.  Rationals stand in for Python floats; all claims
here are about exact arithmetic identities and structural properties,
none about rounding.
-/

namespace ExportDashboard

/-- Model of calculate_growth_rate (export_dashboard.py lines 373-377).
The Python function returns 0 when previous == 0 or either operand is NaN,
otherwise ((current - previous) / previous) * 100.  Missing operands
(pandas NaN) are modelled as none. -/
def calculate_growth_rate (current previous : Option ℚ) : ℚ :=
  match current, previous with
  | some c, some p => if p = 0 then 0 else ((c - p) / p) * 100
  | _, _ => 0

/-- Model of the header-token test applied to one cell: the code runs
astype(str).str.contains with the regular expression HS|URAIAN, i.e. the
cell text contains HS or URAIAN as a substring. -/
def headerTok (cell : String) : Bool :=
  decide ("HS".data <:+: cell.data) || decide ("URAIAN".data <:+: cell.data)

/-- Model of the row-level header test (line 254): .any over the cells of
the first data row. -/
def isHeaderArtifact (row : List String) : Bool :=
  row.any headerTok

/-- Header-artifact removal step of load_data (lines 254-255): only the
first data row is inspected; it is dropped exactly when some cell of it
contains a header token. -/
def dropHeaderArtifact : List (List String) → List (List String)
  | [] => []
  | r :: rest => if isHeaderArtifact r then rest else r :: rest

/-- Cell of a data frame: a text cell, a numeric cell (none models NaN),
or an ISO-code cell produced by get_iso_a3 (none models a Python None). -/
inductive Cell where
  | str : String → Cell
  | num : Option ℚ → Cell
  | code : Option String → Cell
deriving DecidableEq

/-- Data frame: ordered column labels plus rows, each row an association
list from column label to cell. -/
structure DF where
  cols : List String
  rows : List (List (String × Cell))
deriving DecidableEq

/-- Lookup of a cell in one row by column label. -/
def rowCell (r : List (String × Cell)) (c : String) : Option Cell :=
  (r.find? (fun p => p.1 == c)).map (fun p => p.2)

/-- Numeric view of a cell in one row: the value of a numeric cell, none
for a NaN cell or any non-numeric / absent cell. -/
def numCell (r : List (String × Cell)) (c : String) : Option ℚ :=
  match rowCell r c with
  | some (Cell.num q) => q
  | _ => none

/-- Membership test of a column label, modelling col in df.columns. -/
def DF.hasCol (df : DF) (c : String) : Bool :=
  df.cols.contains c

/-- Raw tabular source as produced by pd.read_csv: a header naming the
columns and data rows of string cells. -/
structure RawTable where
  header : List String
  rows : List (List String)
deriving DecidableEq

/-- Raw table turned into a data frame of text cells, columns named by the
header (cells of a row are keyed positionally by the header labels). -/
def mkDF (header : List String) (rows : List (List String)) : DF :=
  { cols := header
    rows := rows.map (fun r => header.zip (r.map Cell.str)) }

/-- Rename of one column label through an explicit lookup table; labels
absent from the table are preserved verbatim, as pandas rename does. -/
def ren (m : List (String × String)) (c : String) : String :=
  match m.find? (fun p => p.1 == c) with
  | some p => p.2
  | none => c

/-- Model of df.rename(columns=m): column labels and per-row keys are
renamed through the lookup table. -/
def DF.rename (df : DF) (m : List (String × String)) : DF :=
  { cols := df.cols.map (ren m)
    rows := df.rows.map (fun r => r.map (fun p => (ren m p.1, p.2))) }

/-- Column rename table for the commodity source (load_data lines
257-264), copied verbatim from the source. -/
def commodity_columns : List (String × String) :=
  [("HS", "hs_code"), ("URAIAN", "description"), ("2020", "export_value_2020"),
   ("2021", "export_value_2021"), ("2022", "export_value_2022"), ("2023", "export_value_2023"),
   ("2024", "export_value_2024"), ("Trend (%)  2020 -  2024", "trend_percentage_2020_2024"),
   ("Perub (%)  2024 -  2023", "change_percentage_2024_2023"), ("Peran (%)  2024", "role_percentage_2024"),
   ("Jan-Mei", "export_value_jan_may_2024"), ("Jan-Mei.1", "export_value_jan_may_2025"),
   ("Perub (%)  2025/  2024", "change_percentage_jan_may_2025_2024"), ("Peran (%)  2025", "role_percentage_2025")]

/-- Column rename table for the country source (load_data lines 268-275),
copied verbatim from the source. -/
def country_columns : List (String × String) :=
  [("COUNTRY", "country"), ("2020", "export_value_2020"), ("2021", "export_value_2021"),
   ("2022", "export_value_2022"), ("2023", "export_value_2023"), ("2024", "export_value_2024"),
   ("Trend (%) 2020 -  2024", "trend_percentage_2020_2024"), ("Perub (%) 2024 -  2023", "change_percentage_2024_2023"),
   ("Peran (%) 2024", "role_percentage_2024"), ("Jan-Mei", "export_value_jan_may_2024"),
   ("Jan-Mei.1", "export_value_jan_may_2025"), ("Perub (%) 2025/  2024", "change_percentage_jan_may_2025_2024"),
   ("Peran (%) 2025", "role_percentage_2025")]

/-- Numeric column selection (line 278): canonical commodity column names
whose text contains export_value or percentage as a substring. -/
def numeric_cols : List String :=
  (commodity_columns.map Prod.snd).filter
    (fun c => decide ("export_value".data <:+: c.data) || decide ("percentage".data <:+: c.data))

/-- Per-cell numeric coercion, parameterized by the numeric parser of
pd.to_numeric (modelled as an oracle String to Option Rat; a parse
failure yields none, i.e. NaN, because errors equals coerce). -/
def cellToNum (parseNum : String → Option ℚ) : Cell → Option ℚ
  | Cell.str s => parseNum s
  | Cell.num q => q
  | Cell.code _ => none

/-- Model of df[col] = pd.to_numeric(df[col], errors=coerce) guarded by
col in df.columns (lines 279-283): the column's cells become numeric
cells, other columns are untouched, absent columns are skipped. -/
def coerceCol (parseNum : String → Option ℚ) (df : DF) (c : String) : DF :=
  if df.hasCol c then
    { df with rows := df.rows.map (fun r => r.map
        (fun p => if p.1 == c then (p.1, Cell.num (cellToNum parseNum p.2)) else p)) }
  else df

/-- Column-wise coercion over the list of numeric columns (the for loop of
lines 279-283, one coerceCol step per column). -/
def coerceAll (parseNum : String → Option ℚ) (df : DF) : List String → DF
  | [] => df
  | c :: cs => coerceAll parseNum (coerceCol parseNum df c) cs

/-- Model of load_data (lines 248-288).  Reading a CSV either yields a raw
table or raises (modelled by Except String RawTable, the message being the
text of the Python exception).  The whole body runs inside a single
try/except: the commodity source is read, its first data row is dropped if
it carries header tokens (an empty commodity table makes iloc[0] raise an
IndexError), columns are renamed, the country source is read and renamed
with no header-row check, and the numeric columns of both tables are
coerced.  Any raised error yields (None, None) plus one generic error
message embedding the exception text. -/
def loadPipeline (parseNum : String → Option ℚ) (srcC srcN : Except String RawTable) :
    Except String (DF × DF) := do
  let rtC ← srcC
  let bodyC ← (match rtC.rows with
    | [] => Except.error "single positional indexer is out-of-bounds"
    | r :: rest => Except.ok (dropHeaderArtifact (r :: rest)))
  let dfC := (mkDF rtC.header bodyC).rename commodity_columns
  let rtN ← srcN
  let dfN := (mkDF rtN.header rtN.rows).rename country_columns
  let dfC := coerceAll parseNum dfC numeric_cols
  let dfN := coerceAll parseNum dfN numeric_cols
  pure (dfC, dfN)

/-- Result shape of load_data: the try/except wrapper around the pipeline.
A successful pipeline yields both tables and no error message; any raised
error yields (None, None) and one generic message embedding the exception
text. -/
def load_data (parseNum : String → Option ℚ) (srcC srcN : Except String RawTable) :
    (Option DF × Option DF) × Option String :=
  match loadPipeline parseNum srcC srcN with
  | Except.ok (dfC, dfN) => ((some dfC, some dfN), none)
  | Except.error m => ((none, none), some ("❌ Error loading data: " ++ m))

/-- Guard at the top of main (lines 518-521): the dashboard proceeds to
aggregation only when both loaded tables are present. -/
def mainProceeds (res : (Option DF × Option DF) × Option String) : Bool :=
  res.1.1.isSome && res.1.2.isSome

/-- Static override table of get_iso_a3 (lines 334-342), copied verbatim
from the source (the apostrophe is written as the escape x27). -/
def country_mapping : List (String × String) :=
  [("REPUBLIC OF CHINA", "CHN"), ("UNITED STATES", "USA"), ("SOUTH KOREA", "KOR"), ("UNITED KINGDOM", "GBR"),
   ("RUSSIAN FEDERATION", "RUS"), ("CZECH REPUBLIC", "CZE"), ("BOLIVIA", "BOL"), ("VENEZUELA", "VEN"),
   ("IRAN", "IRN"), ("LAO PEOPLE\x27S DEMOCRATIC REPUBLIC", "LAO"), ("MOLDOVA", "MDA"), ("SYRIA", "SYR"),
   ("TANZANIA", "TZA"), ("VIETNAM", "VNM"), ("BRUNEI DARUSSALAM", "BRN"), ("CABO VERDE", "CPV"), ("CONGO", "COG"),
   ("DEMOCRATIC REPUBLIC OF THE CONGO", "COD"), ("EGYPT", "EGY"), ("GAMBIA", "GMB"), ("GUINEA BISSAU", "GNB"),
   ("SAO TOME AND PRINCIPE", "STP"), ("SWAZILAND", "SWZ"), ("UNITED ARAB EMIRATES", "ARE"), ("YEMEN", "YEM"),
   ("NORTH MACEDONIA", "MKD"), ("PALESTINE", "PSE"), ("KOREA, DEMOCRATIC PEOPLE\x27S REPUBLIC OF", "PRK")]

/-- Model of get_iso_a3 (lines 330-348).  avail models the module-level
PYCOUNTRY_AVAILABLE flag; fuzzy models pycountry.countries.search_fuzzy
followed by .alpha_3 on the top candidate, returning none when the lookup
raises LookupError (no match).  The Python function returns None first
when pycountry is unavailable, then consults the override table, then the
fuzzy lookup. -/
def get_iso_a3 (avail : Bool) (fuzzy : String → Option String) (country_name : String) :
    Option String :=
  if !avail then none
  else
    match country_mapping.find? (fun p => p.1 == country_name) with
    | some p => some p.2
    | none => fuzzy country_name

/-- Non-missing entries of a column, paired with their original row
positions (counting from i): models Series.dropna while remembering the
original order.  Each list element is (position, label, value). -/
def withIdx {α : Type} : ℕ → List (α × Option ℚ) → List (ℕ × α × ℚ)
  | _, [] => []
  | i, (_, none) :: rs => withIdx (i + 1) rs
  | i, (a, some q) :: rs => (i, a, q) :: withIdx (i + 1) rs

/-- Missing entries of a column, paired with their original row positions:
models the nan_index rows that pandas nlargest appends after the selected
non-missing rows. -/
def missings {α : Type} : ℕ → List (α × Option ℚ) → List (ℕ × α)
  | _, [] => []
  | i, (a, none) :: rs => (i, a) :: missings (i + 1) rs
  | i, (_, some _) :: rs => missings (i + 1) rs

/-- Comparator realizing the stable descending sort performed by pandas
nlargest with keep equal to first (argsort with kind mergesort on negated
values): a row precedes another when its value is larger, or when the
values tie and its original position is not later.  A stable sort by
descending value coincides with sorting by this lexicographic order on
(value, original position). -/
def keyLE {α : Type} (a b : ℕ × α × ℚ) : Prop :=
  b.2.2 < a.2.2 ∨ (a.2.2 = b.2.2 ∧ a.1 ≤ b.1)

instance {α : Type} : DecidableRel (keyLE (α := α)) := fun a b => by
  unfold keyLE; exact instDecidableOr

instance {α : Type} : IsTotal (ℕ × α × ℚ) keyLE where
  total a b := by
    rcases lt_trichotomy a.2.2 b.2.2 with h | h | h
    · exact Or.inr (Or.inl h)
    · rcases Nat.le_total a.1 b.1 with h' | h'
      · exact Or.inl (Or.inr ⟨h, h'⟩)
      · exact Or.inr (Or.inr ⟨h.symm, h'⟩)
    · exact Or.inl (Or.inl h)

instance {α : Type} : IsTrans (ℕ × α × ℚ) keyLE where
  trans a b c hab hbc := by
    rcases hab with hab | ⟨hab, hab'⟩
    · rcases hbc with hbc | ⟨hbc, _⟩
      · exact Or.inl (hbc.trans hab)
      · exact Or.inl (hbc ▸ hab)
    · rcases hbc with hbc | ⟨hbc, hbc'⟩
      · exact Or.inl (hab ▸ hbc)
      · exact Or.inr ⟨hab.trans hbc, hab'.trans hbc'⟩

/-- Non-missing entries of a column sorted stably by descending value. -/
def sortedPresent {α : Type} (rows : List (α × Option ℚ)) : List (ℕ × α × ℚ) :=
  List.insertionSort keyLE (withIdx 0 rows)

/-- Model of Series.nlargest(n) with the default keep equal to first, as
performed by DataFrame.nlargest(n, col) on a single column (pandas
core/methods/selectn.py): the non-missing values, sorted stably by
descending value, truncated to n, followed by the missing-valued rows in
original order, the whole truncated to n.  In particular when n exceeds
the number of non-missing values the result is padded with missing-valued
rows, up to min n (row count) rows in total. -/
def nlargest {α : Type} (rows : List (α × Option ℚ)) (n : ℕ) : List (ℕ × α × Option ℚ) :=
  (((sortedPresent rows).take n).map (fun x => (x.1, x.2.1, some x.2.2)) ++
    (missings 0 rows).map (fun x => (x.1, x.2, (none : Option ℚ)))).take n

/-- Model of data.nlargest(top_n, value_col) as called by
create_streamlit_bar_chart (line 309) and create_data_table (line 353):
raises a KeyError when the value column is absent from the table,
otherwise selects rows by the column's numeric values. -/
def nlargestOp (df : DF) (c : String) (n : ℕ) :
    Except Unit (List (ℕ × List (String × Cell) × Option ℚ)) :=
  if df.hasCol c then
    Except.ok (nlargest (df.rows.map (fun r => (r, numCell r c))) n)
  else Except.error ()

/-- Sum of a column, missing treated as zero: models Series.sum() with its
default skipna. -/
def colSum (df : DF) (c : String) : ℚ :=
  (df.rows.map (fun r => (numCell r c).getD 0)).sum

/-- Canonical year column label. -/
def yearCol (y : ℕ) : String := "export_value_" ++ toString y

/-- The fixed set of supported years (line 319). -/
def years : List ℕ := [2020, 2021, 2022, 2023, 2024]

/-- Model of the trend computation of create_streamlit_line_chart (lines
319-321): for each supported year, the column sum when the column exists,
and 0 when the year's column is absent from the table. -/
def trendData (df : DF) : List (ℕ × ℚ) :=
  years.map (fun y => (y, if df.hasCol (yearCol y) then colSum df (yearCol y) else 0))

/-- Mean of a column, skipping missing values: none when no value is
present, as Series.mean() yields NaN on an all-missing column. -/
def colMean (df : DF) (c : String) : Option ℚ :=
  let vs := df.rows.filterMap (fun r => numCell r c)
  if vs.length = 0 then none else some (vs.sum / vs.length)

/-- Maximum of a column, skipping missing values. -/
def colMax (df : DF) (c : String) : Option ℚ :=
  (df.rows.filterMap (fun r => numCell r c)).max?

/-- Minimum of a column, skipping missing values. -/
def colMin (df : DF) (c : String) : Option ℚ :=
  (df.rows.filterMap (fun r => numCell r c)).min?

/-- Model of create_stats_summary (lines 481-486): an absent column makes
data[current_year_col] raise a KeyError; otherwise it renders total,
average, maximum and minimum of the column. -/
def create_stats_summary (df : DF) (c : String) :
    Except Unit (ℚ × Option ℚ × Option ℚ × Option ℚ) :=
  if df.hasCol c then Except.ok (colSum df c, colMean df c, colMax df c, colMin df c)
  else Except.error ()

/-- In-place assignment of one cell within a row: an existing entry for
the column is overwritten, otherwise the entry is appended. -/
def setCell (r : List (String × Cell)) (c : String) (v : Cell) : List (String × Cell) :=
  if (r.find? (fun p => p.1 == c)).isSome then
    r.map (fun p => if p.1 == c then (c, v) else p)
  else r ++ [(c, v)]

/-- Model of df[c] = series (in-place column assignment on a data frame):
every row receives the cell computed from it, and the column label is
appended when new. -/
def DF.setCol (df : DF) (c : String) (f : List (String × Cell) → Cell) : DF :=
  { cols := if df.cols.contains c then df.cols else df.cols ++ [c]
    rows := df.rows.map (fun r => setCell r c (f r)) }

/-- Text of the country cell of a row. -/
def countryOf (r : List (String × Cell)) : String :=
  match rowCell r "country" with
  | some (Cell.str s) => s
  | _ => ""

/-- Code stored in the iso_a3 cell of a row, none when unresolved. -/
def isoOf (r : List (String × Cell)) : Option String :=
  match rowCell r "iso_a3" with
  | some (Cell.code v) => v
  | _ => none

/-- Model of create_world_map (lines 379-418), state-passing style: the
first component of the result is the country table as left behind by the
call, the second the data handed to the choropleth figure (none when the
function returns None).  When pycountry is unavailable it returns early
without touching the table.  Otherwise line 385 assigns the derived
iso_a3 column onto the passed table in place, df_map drops the unresolved
rows into a fresh frame, and an absent year column yields None after the
mutation already happened.  An absent country column would make line 385
raise a KeyError, modelled as the error case. -/
def create_world_map (avail : Bool) (fuzzy : String → Option String) (df : DF) (year : ℕ) :
    Except Unit (DF × Option DF) :=
  if !avail then Except.ok (df, none)
  else if !(df.hasCol "country") then Except.error ()
  else
    let df1 := df.setCol "iso_a3" (fun r => Cell.code (get_iso_a3 avail fuzzy (countryOf r)))
    let dfMap : DF := { cols := df1.cols, rows := df1.rows.filter (fun r => (isoOf r).isSome) }
    if df1.hasCol (yearCol year) then Except.ok (df1, some dfMap)
    else Except.ok (df1, none)

/-! ### Helper lemmas -/

theorem mkDF_rows_length (h : List String) (rows : List (List String)) :
    (mkDF h rows).rows.length = rows.length := by
  simp [mkDF]

theorem rename_rows_length (df : DF) (m : List (String × String)) :
    (df.rename m).rows.length = df.rows.length := by
  simp [DF.rename]

theorem coerceCol_rows_length (pn : String → Option ℚ) (df : DF) (c : String) :
    (coerceCol pn df c).rows.length = df.rows.length := by
  unfold coerceCol; split <;> simp

theorem coerceAll_rows_length (pn : String → Option ℚ) (cs : List String) (df : DF) :
    (coerceAll pn df cs).rows.length = df.rows.length := by
  induction cs generalizing df with
  | nil => rfl
  | cons c cs ih => rw [coerceAll, ih, coerceCol_rows_length]

theorem headerTok_HS : headerTok "HS" = true := by decide

theorem headerTok_URAIAN : headerTok "URAIAN" = true := by decide

theorem isHeaderArtifact_of_mem {r : List String} (h : "HS" ∈ r ∨ "URAIAN" ∈ r) :
    isHeaderArtifact r = true := by
  rcases h with h | h
  · exact List.any_eq_true.mpr ⟨"HS", h, headerTok_HS⟩
  · exact List.any_eq_true.mpr ⟨"URAIAN", h, headerTok_URAIAN⟩

theorem withIdx_length {α : Type} (k : ℕ) (l : List (α × Option ℚ)) :
    (withIdx k l).length = l.countP (fun r => r.2.isSome) := by
  induction l generalizing k with
  | nil => rfl
  | cons hd tl ih =>
    obtain ⟨a, v⟩ := hd
    cases v with
    | none => simp [withIdx, List.countP_cons, ih]
    | some q => simp [withIdx, List.countP_cons, ih]

theorem missings_length {α : Type} (k : ℕ) (l : List (α × Option ℚ)) :
    (missings k l).length = l.countP (fun r => r.2.isNone) := by
  induction l generalizing k with
  | nil => rfl
  | cons hd tl ih =>
    obtain ⟨a, v⟩ := hd
    cases v with
    | none => simp [missings, List.countP_cons, ih]
    | some q => simp [missings, List.countP_cons, ih]

theorem countP_isSome_add_isNone {α : Type} (l : List (α × Option ℚ)) :
    l.countP (fun r => r.2.isSome) + l.countP (fun r => r.2.isNone) = l.length := by
  induction l with
  | nil => rfl
  | cons hd tl ih =>
    obtain ⟨a, v⟩ := hd
    cases v with
    | none => simp [List.countP_cons]; omega
    | some q => simp [List.countP_cons]; omega

theorem withIdx_le_idx {α : Type} (k : ℕ) (l : List (α × Option ℚ)) :
    ∀ x ∈ withIdx k l, k ≤ x.1 := by
  induction l generalizing k with
  | nil => intro x hx; cases hx
  | cons hd tl ih =>
    obtain ⟨a, v⟩ := hd
    cases v with
    | none => exact fun x hx => Nat.le_of_succ_le (ih (k + 1) x hx)
    | some q =>
      intro x hx
      rcases List.mem_cons.mp hx with rfl | hx
      · exact Nat.le_refl k
      · exact Nat.le_of_succ_le (ih (k + 1) x hx)

theorem missings_le_idx {α : Type} (k : ℕ) (l : List (α × Option ℚ)) :
    ∀ x ∈ missings k l, k ≤ x.1 := by
  induction l generalizing k with
  | nil => intro x hx; cases hx
  | cons hd tl ih =>
    obtain ⟨a, v⟩ := hd
    cases v with
    | some q => exact fun x hx => Nat.le_of_succ_le (ih (k + 1) x hx)
    | none =>
      intro x hx
      rcases List.mem_cons.mp hx with rfl | hx
      · exact Nat.le_refl k
      · exact Nat.le_of_succ_le (ih (k + 1) x hx)

theorem withIdx_pairwise {α : Type} (k : ℕ) (l : List (α × Option ℚ)) :
    (withIdx k l).Pairwise (fun a b => a.1 < b.1) := by
  induction l generalizing k with
  | nil => exact List.Pairwise.nil
  | cons hd tl ih =>
    obtain ⟨a, v⟩ := hd
    cases v with
    | none => exact ih (k + 1)
    | some q =>
      exact List.Pairwise.cons
        (fun y hy => Nat.lt_of_succ_le (withIdx_le_idx (k + 1) tl y hy)) (ih (k + 1))

theorem missings_pairwise {α : Type} (k : ℕ) (l : List (α × Option ℚ)) :
    (missings k l).Pairwise (fun a b => a.1 < b.1) := by
  induction l generalizing k with
  | nil => exact List.Pairwise.nil
  | cons hd tl ih =>
    obtain ⟨a, v⟩ := hd
    cases v with
    | some q => exact ih (k + 1)
    | none =>
      exact List.Pairwise.cons
        (fun y hy => Nat.lt_of_succ_le (missings_le_idx (k + 1) tl y hy)) (ih (k + 1))

theorem withIdx_get {α : Type} (k : ℕ) (l : List (α × Option ℚ)) :
    ∀ x ∈ withIdx k l, l[x.1 - k]? = some (x.2.1, some x.2.2) := by
  induction l generalizing k with
  | nil => intro x hx; cases hx
  | cons hd tl ih =>
    obtain ⟨a, v⟩ := hd
    cases v with
    | none =>
      intro x hx
      have hk := withIdx_le_idx (k + 1) tl x hx
      have h := ih (k + 1) x hx
      have hidx : x.1 - k = (x.1 - (k + 1)) + 1 := by omega
      rw [hidx]
      simpa using h
    | some q =>
      intro x hx
      rcases List.mem_cons.mp hx with rfl | hx
      · simp
      · have hk := withIdx_le_idx (k + 1) tl x hx
        have h := ih (k + 1) x hx
        have hidx : x.1 - k = (x.1 - (k + 1)) + 1 := by omega
        rw [hidx]
        simpa using h

theorem missings_get {α : Type} (k : ℕ) (l : List (α × Option ℚ)) :
    ∀ x ∈ missings k l, l[x.1 - k]? = some (x.2, none) := by
  induction l generalizing k with
  | nil => intro x hx; cases hx
  | cons hd tl ih =>
    obtain ⟨a, v⟩ := hd
    cases v with
    | some q =>
      intro x hx
      have hk := missings_le_idx (k + 1) tl x hx
      have h := ih (k + 1) x hx
      have hidx : x.1 - k = (x.1 - (k + 1)) + 1 := by omega
      rw [hidx]
      simpa using h
    | none =>
      intro x hx
      rcases List.mem_cons.mp hx with rfl | hx
      · simp
      · have hk := missings_le_idx (k + 1) tl x hx
        have h := ih (k + 1) x hx
        have hidx : x.1 - k = (x.1 - (k + 1)) + 1 := by omega
        rw [hidx]
        simpa using h

theorem sortedPresent_perm {α : Type} (rows : List (α × Option ℚ)) :
    List.Perm (sortedPresent rows) (withIdx 0 rows) :=
  List.perm_insertionSort keyLE (withIdx 0 rows)

theorem sortedPresent_length {α : Type} (rows : List (α × Option ℚ)) :
    (sortedPresent rows).length = rows.countP (fun r => r.2.isSome) :=
  ((sortedPresent_perm rows).length_eq).trans (withIdx_length 0 rows)

theorem sortedPresent_pairwise {α : Type} (rows : List (α × Option ℚ)) :
    (sortedPresent rows).Pairwise
      (fun a b => b.2.2 ≤ a.2.2 ∧ (a.2.2 = b.2.2 → a.1 < b.1)) := by
  have hs : (sortedPresent rows).Pairwise keyLE :=
    List.sorted_insertionSort keyLE (withIdx 0 rows)
  have hnd : (sortedPresent rows).Pairwise (fun a b => a.1 ≠ b.1) := by
    have h1 : ((withIdx 0 rows).map Prod.fst).Nodup :=
      List.pairwise_map.mpr ((withIdx_pairwise 0 rows).imp (fun h => Nat.ne_of_lt h))
    have h2 : ((sortedPresent rows).map Prod.fst).Nodup :=
      (((sortedPresent_perm rows).map Prod.fst).symm).nodup h1
    exact List.pairwise_map.mp h2
  refine (hs.and hnd).imp ?_
  rintro a b ⟨hk, hne⟩
  rcases hk with hlt | ⟨heq, hle⟩
  · exact ⟨le_of_lt hlt, fun h => by rw [h] at hlt; exact absurd hlt (lt_irrefl _)⟩
  · exact ⟨le_of_eq heq.symm, fun _ => lt_of_le_of_ne hle hne⟩

theorem sortedPresent_mem {α : Type} (rows : List (α × Option ℚ))
    (y : ℕ × α × ℚ) (hy : y ∈ sortedPresent rows) : rows[y.1]? = some (y.2.1, some y.2.2) := by
  have h := withIdx_get 0 rows y ((sortedPresent_perm rows).mem_iff.mp hy)
  simpa using h

theorem rowCell_map_overwrite (r : List (String × Cell)) (c c' : String) (v : Cell)
    (h : c' ≠ c) :
    rowCell (r.map (fun p => if p.1 == c then (c, v) else p)) c' = rowCell r c' := by
  induction r with
  | nil => rfl
  | cons p ps ih =>
    simp only [List.map_cons]
    by_cases hp : p.1 = c
    · have hc : (c == c') = false := beq_eq_false_iff_ne.mpr (fun hcc => h hcc.symm)
      have hp' : (p.1 == c') = false := beq_eq_false_iff_ne.mpr (by
        rw [hp]; exact fun hcc => h hcc.symm)
      rw [if_pos (beq_iff_eq.mpr hp)]
      simp only [rowCell, List.find?_cons, hc, hp']
      exact ih
    · rw [if_neg (by simpa using hp)]
      by_cases hq : p.1 = c'
      · simp [rowCell, List.find?_cons, beq_iff_eq.mpr hq]
      · simp only [rowCell, List.find?_cons, beq_eq_false_iff_ne.mpr hq]
        exact ih

theorem rowCell_append_single (r : List (String × Cell)) (c c' : String) (v : Cell)
    (h : c' ≠ c) :
    rowCell (r ++ [(c, v)]) c' = rowCell r c' := by
  induction r with
  | nil =>
    simp [rowCell, List.find?_cons, beq_eq_false_iff_ne.mpr (fun hcc : c = c' => h hcc.symm)]
  | cons p ps ih =>
    by_cases hq : p.1 = c'
    · simp [rowCell, List.find?_cons, beq_iff_eq.mpr hq]
    · simp only [List.cons_append, rowCell, List.find?_cons, beq_eq_false_iff_ne.mpr hq]
      exact ih

theorem rowCell_setCell_ne (r : List (String × Cell)) (c c' : String) (v : Cell)
    (h : c' ≠ c) :
    rowCell (setCell r c v) c' = rowCell r c' := by
  unfold setCell
  split
  · exact rowCell_map_overwrite r c c' v h
  · exact rowCell_append_single r c c' v h

theorem setCol_rows_length (df : DF) (c : String) (f : List (String × Cell) → Cell) :
    (df.setCol c f).rows.length = df.rows.length := by
  simp [DF.setCol]

theorem setCol_contains_ne (df : DF) (c c' : String) (f : List (String × Cell) → Cell)
    (h : c' ≠ c) :
    (df.setCol c f).cols.contains c' = df.cols.contains c' := by
  unfold DF.setCol
  by_cases hc : c ∈ df.cols
  · simp [hc]
  · simp [hc, h]

theorem setCol_rowCell_ne (df : DF) (c c' : String) (f : List (String × Cell) → Cell)
    (i : ℕ) (h : c' ≠ c) :
    ((df.setCol c f).rows[i]?.map (fun r => rowCell r c')) =
      (df.rows[i]?.map (fun r => rowCell r c')) := by
  simp only [DF.setCol, List.getElem?_map]
  cases hrow : df.rows[i]? with
  | none => rfl
  | some r => simp [rowCell_setCell_ne r c c' (f r) h]

/-! ### Claims -/

/-- C1: growthRate(current, previous) equals ((current - previous) / previous) * 100
when previous is non-zero and both operands are present, and equals 0 when
previous is zero or either operand is missing; growthRate(100, 50) = 100,
growthRate(50, 0) = 0, growthRate(x, missing) = 0; the result is a total
function of its operands (never infinite or undefined). -/
theorem calculate_growth_rate_spec (c p : ℚ) (x : Option ℚ) :
    (p ≠ 0 → calculate_growth_rate (some c) (some p) = (c - p) / p * 100) ∧
    calculate_growth_rate (some c) (some 0) = 0 ∧
    calculate_growth_rate x none = 0 ∧
    calculate_growth_rate none x = 0 ∧
    calculate_growth_rate (some 100) (some 50) = 100 ∧
    calculate_growth_rate (some 50) (some 0) = 0 := by
  refine ⟨fun hp => by simp [calculate_growth_rate, hp], by simp [calculate_growth_rate],
    ?_, ?_, by norm_num [calculate_growth_rate], by simp [calculate_growth_rate]⟩
  · cases x <;> rfl
  · cases x <;> rfl

/-- Witness for C1 at current = 100, previous = 50. -/
theorem calculate_growth_rate_spec_witness :
    calculate_growth_rate (some 100) (some 50) = (100 - 50) / 50 * 100 :=
  (calculate_growth_rate_spec 100 50 none).1 (by norm_num)

/-- C7: resolve("UNITED STATES") = USA and resolve("SOUTH KOREA") = KOR via
the override table; resolve("Atlantis") is unresolved (None, not an error)
whenever the fuzzy reference lookup has no match for Atlantis. -/
theorem get_iso_a3_examples (fuzzy : String → Option String)
    (hAtl : fuzzy "Atlantis" = none) :
    get_iso_a3 true fuzzy "UNITED STATES" = some "USA" ∧
    get_iso_a3 true fuzzy "SOUTH KOREA" = some "KOR" ∧
    get_iso_a3 true fuzzy "Atlantis" = none := by
  refine ⟨rfl, rfl, ?_⟩
  have h : get_iso_a3 true fuzzy "Atlantis" = fuzzy "Atlantis" := rfl
  exact h.trans hAtl

/-- Witness for C7 with a fuzzy lookup that matches nothing. -/
theorem get_iso_a3_examples_witness :
    get_iso_a3 true (fun _ => none) "UNITED STATES" = some "USA" ∧
    get_iso_a3 true (fun _ => none) "Atlantis" = none :=
  ⟨(get_iso_a3_examples (fun _ => none) rfl).1, (get_iso_a3_examples (fun _ => none) rfl).2.2⟩

/-- C8 counterexample: UNITED STATES is present in the override table with
code USA, yet when the fuzzy lookup library is unavailable get_iso_a3
returns None for it — so unavailability does not cause an unresolved
result only for names absent from the override table: the code checks
availability before the override table. -/
theorem get_iso_a3_unavailable_counterexample :
    country_mapping.find? (fun p => p.1 == "UNITED STATES") = some ("UNITED STATES", "USA") ∧
    get_iso_a3 false (fun _ => some "ZZZ") "UNITED STATES" = none := by
  exact ⟨rfl, rfl⟩

/-- C8 amended: when the fuzzy lookup library is available, a name present
in the override table resolves to that table's code without consulting the
fuzzy lookup (the result is the same for every fuzzy oracle); when the
library is unavailable, get_iso_a3 returns unresolved for every name,
including names present in the override table. -/
theorem get_iso_a3_override_first (f g : String → Option String) (name : String)
    (entry : String × String)
    (h : country_mapping.find? (fun p => p.1 == name) = some entry) :
    get_iso_a3 true f name = some entry.2 ∧
    get_iso_a3 true f name = get_iso_a3 true g name ∧
    (∀ nm : String, get_iso_a3 false f nm = none) := by
  refine ⟨?_, ?_, fun nm => rfl⟩ <;> simp [get_iso_a3, h]

/-- Witness for C8's amended claim at SOUTH KOREA. -/
theorem get_iso_a3_override_first_witness :
    get_iso_a3 true (fun _ => none) "SOUTH KOREA" = some ("SOUTH KOREA", "KOR").2 :=
  (get_iso_a3_override_first (fun _ => none) (fun _ => some "ZZZ") "SOUTH KOREA"
    ("SOUTH KOREA", "KOR") rfl).1

/-- C3: header-artifact removal drops exactly the rows matching the header
pattern: a first row one of whose cells equals a header token (HS or
URAIAN) is removed; only the first row is ever inspected, so the result is
either the whole list or the tail after a matching first row; and no row
lacking the header-artifact pattern is ever dropped. -/
theorem dropHeaderArtifact_spec (rows : List (List String)) :
    (∀ r0 rest, rows = r0 :: rest → ("HS" ∈ r0 ∨ "URAIAN" ∈ r0) →
      dropHeaderArtifact rows = rest) ∧
    (dropHeaderArtifact rows = rows ∨
      ∃ r0 rest, rows = r0 :: rest ∧ isHeaderArtifact r0 = true ∧
        dropHeaderArtifact rows = rest) ∧
    (∀ r, r ∈ rows → r ∉ dropHeaderArtifact rows → isHeaderArtifact r = true) := by
  refine ⟨?_, ?_, ?_⟩
  · rintro r0 rest rfl hmem
    simp [dropHeaderArtifact, isHeaderArtifact_of_mem hmem]
  · cases rows with
    | nil => exact Or.inl rfl
    | cons r0 rest =>
      by_cases h : isHeaderArtifact r0 = true
      · exact Or.inr ⟨r0, rest, rfl, h, by simp [dropHeaderArtifact, h]⟩
      · exact Or.inl (by simp [dropHeaderArtifact, h])
  · intro r hr hnot
    cases rows with
    | nil => cases hr
    | cons r0 rest =>
      by_cases h : isHeaderArtifact r0 = true
      · rcases List.mem_cons.mp hr with rfl | hmem
        · exact h
        · exact absurd (by simpa [dropHeaderArtifact, h] using hmem) hnot
      · exact absurd (by simpa [dropHeaderArtifact, h] using hr) hnot

/-- Witness for C3: a first row carrying the header tokens is dropped, the
second row survives. -/
theorem dropHeaderArtifact_spec_witness :
    dropHeaderArtifact [["HS", "URAIAN"], ["01", "Animals"]] = [["01", "Animals"]] :=
  (dropHeaderArtifact_spec [["HS", "URAIAN"], ["01", "Animals"]]).1 ["HS", "URAIAN"]
    [["01", "Animals"]] rfl (Or.inl (by simp))

/-- C10: if reading or normalizing either one of the two sources raises an
error, load_data returns no table for both sources — a failure on the
country source also discards a successfully loaded commodity table, and
vice versa. -/
theorem load_data_allOrNothing (parseNum : String → Option ℚ)
    (srcC srcN : Except String RawTable)
    (h : (∃ m, srcC = Except.error m) ∨ (∃ m, srcN = Except.error m)) :
    (load_data parseNum srcC srcN).1 = (none, none) := by
  rcases h with ⟨m, rfl⟩ | ⟨m, rfl⟩
  · rfl
  · cases srcC with
    | error e => rfl
    | ok rt =>
      cases rt with
      | mk hd rws =>
        cases rws with
        | nil => rfl
        | cons r rest => rfl

/-- Witness for C10: a country-source read failure discards the loadable
commodity table. -/
theorem load_data_allOrNothing_witness :
    (load_data (fun _ => none)
      (Except.ok { header := ["HS", "URAIAN", "2024"], rows := [["01", "Animals", "5"]] })
      (Except.error "FileNotFoundError")).1 = (none, none) :=
  load_data_allOrNothing (fun _ => none)
    (Except.ok { header := ["HS", "URAIAN", "2024"], rows := [["01", "Animals", "5"]] })
    (Except.error "FileNotFoundError") (Or.inr ⟨"FileNotFoundError", rfl⟩)

/-- C4 counterexample: the first data row of the country source matches
the header pattern (it carries the URAIAN token), yet load_data keeps both
country rows — the header-artifact check of line 254 is applied to the
commodity source only, never to the country source, so the claimed drop
does not happen there. -/
theorem load_data_country_header_counterexample :
    isHeaderArtifact ["URAIAN", "10"] = true ∧
    ((load_data (fun _ => none)
        (Except.ok { header := ["HS", "URAIAN", "2024"], rows := [["01", "Animals", "5"]] })
        (Except.ok { header := ["COUNTRY", "2024"], rows := [["URAIAN", "10"], ["JAPAN", "7"]] })).1.2.map
      (fun df => df.rows.length)) = some 2 := by
  exact ⟨by decide, rfl⟩

/-- C4 amended: header-artifact detection is applied only to the commodity
source: the commodity table's first data row is dropped exactly when some
cell of it contains a header token, before renaming and coercion, while
the country table keeps every raw data row — no header-row check is
applied to the country source. -/
theorem load_data_header_check_commodity_only (parseNum : String → Option ℚ)
    (rtC rtN : RawTable) (r0 : List String) (rest : List (List String))
    (hC : rtC.rows = r0 :: rest) :
    ((load_data parseNum (Except.ok rtC) (Except.ok rtN)).1.2.map
        (fun df => df.rows.length)) = some rtN.rows.length ∧
    ((load_data parseNum (Except.ok rtC) (Except.ok rtN)).1.1.map
        (fun df => df.rows.length)) = some (dropHeaderArtifact rtC.rows).length ∧
    (isHeaderArtifact r0 = true →
      ((load_data parseNum (Except.ok rtC) (Except.ok rtN)).1.1.map
        (fun df => df.rows.length)) = some rest.length) := by
  obtain ⟨hd, rws⟩ := rtC
  simp only at hC
  subst hC
  refine ⟨?_, ?_, ?_⟩
  · show some ((coerceAll parseNum ((mkDF rtN.header rtN.rows).rename country_columns)
      numeric_cols).rows.length) = some rtN.rows.length
    rw [coerceAll_rows_length, rename_rows_length, mkDF_rows_length]
  · show some ((coerceAll parseNum
      ((mkDF hd (dropHeaderArtifact (r0 :: rest))).rename commodity_columns)
      numeric_cols).rows.length) = some (dropHeaderArtifact (r0 :: rest)).length
    rw [coerceAll_rows_length, rename_rows_length, mkDF_rows_length]
  · intro h
    show some ((coerceAll parseNum
      ((mkDF hd (dropHeaderArtifact (r0 :: rest))).rename commodity_columns)
      numeric_cols).rows.length) = some rest.length
    rw [coerceAll_rows_length, rename_rows_length, mkDF_rows_length]
    simp [dropHeaderArtifact, h]

/-- Witness for C4's amended claim: a commodity source with a redundant
header row loses exactly that row, the country table keeps its single
row. -/
theorem load_data_header_check_commodity_only_witness :
    ((load_data (fun _ => none)
        (Except.ok { header := ["HS", "2024"], rows := [["HS", "5"], ["01", "7"]] })
        (Except.ok { header := ["COUNTRY", "2024"], rows := [["JAPAN", "7"]] })).1.1.map
      (fun df => df.rows.length)) = some 1 :=
  (load_data_header_check_commodity_only (fun _ => none)
    { header := ["HS", "2024"], rows := [["HS", "5"], ["01", "7"]] }
    { header := ["COUNTRY", "2024"], rows := [["JAPAN", "7"]] }
    ["HS", "5"] [["01", "7"]] rfl).2.2 (by decide)

/-- C5 counterexample: a commodity source that is present and parseable
but whose column set matches none of the canonical schema (required
columns unidentifiable — the claimed SchemaError situation) raises
nothing: load_data reports no error, returns both tables, and main
proceeds to aggregation, contradicting the claim that a SchemaError
yields no usable table and stops the caller.  The loader also has no
distinct SourceNotFound / ParseError / SchemaError reports: every raised
exception lands in one generic message (see the amended theorem). -/
theorem load_data_schema_counterexample :
    ((load_data (fun _ => none)
        (Except.ok { header := ["FOO", "BAR"], rows := [["x", "y"]] })
        (Except.ok { header := ["COUNTRY", "2024"], rows := [["JAPAN", "7"]] })).2 = none) ∧
    mainProceeds (load_data (fun _ => none)
        (Except.ok { header := ["FOO", "BAR"], rows := [["x", "y"]] })
        (Except.ok { header := ["COUNTRY", "2024"], rows := [["JAPAN", "7"]] })) = true := by
  exact ⟨rfl, rfl⟩

/-- C5 amended: when reading either source raises (missing or unreadable
file, parse failure), load_data reports one generic error message that
embeds the exception text — there is no structured SourceNotFound /
ParseError / SchemaError taxonomy, and an unrecognizable column set raises
nothing at all — and on any raised error it returns no table for either
source; the caller proceeds exactly when no error was reported, and the
two tables are always either both present or both absent (no partial
result). -/
theorem load_data_failure_policy (parseNum : String → Option ℚ)
    (srcC srcN : Except String RawTable) (m : String) :
    (srcC = Except.error m →
      load_data parseNum srcC srcN =
        ((none, none), some ("❌ Error loading data: " ++ m))) ∧
    (∀ rtC r0 rest, srcC = Except.ok rtC → rtC.rows = r0 :: rest → srcN = Except.error m →
      load_data parseNum srcC srcN =
        ((none, none), some ("❌ Error loading data: " ++ m))) ∧
    ((load_data parseNum srcC srcN).1.1.isSome = (load_data parseNum srcC srcN).1.2.isSome) ∧
    (mainProceeds (load_data parseNum srcC srcN) = true ↔
      (load_data parseNum srcC srcN).2 = none) := by
  refine ⟨?_, ?_, ?_, ?_⟩
  · rintro rfl; rfl
  · rintro rtC r0 rest rfl h rfl
    obtain ⟨hd, rws⟩ := rtC
    simp only at h
    subst h
    rfl
  · cases h : loadPipeline parseNum srcC srcN with
    | ok v => obtain ⟨a, b⟩ := v; simp [load_data, h]
    | error e => simp [load_data, h]
  · cases h : loadPipeline parseNum srcC srcN with
    | ok v => obtain ⟨a, b⟩ := v; simp [load_data, h, mainProceeds]
    | error e => simp [load_data, h, mainProceeds]

/-- Witness for C5's amended claim: a raised read error surfaces as the
single generic message embedding the exception text, with both tables
absent. -/
theorem load_data_failure_policy_witness :
    load_data (fun _ => none) (Except.error "ParserError") (Except.ok { header := [], rows := [] }) =
      ((none, none), some ("❌ Error loading data: " ++ "ParserError")) :=
  (load_data_failure_policy (fun _ => none) (Except.error "ParserError")
    (Except.ok { header := [], rows := [] }) "ParserError").1 rfl

/-- C2 counterexample: on a table with one non-missing and two missing
values for the selected year, nlargest with n = 2 returns 2 rows — pandas
pads the result with missing-valued rows up to n — while the claim
demands exactly min(2, 1) = 1 row.  The padding is visible in pandas
nlargest keep-first: the rows dropped by dropna are concatenated back
behind the selected rows and the result truncated at n. -/
theorem nlargest_counterexample :
    (nlargest [(("A" : String), some (5 : ℚ)), ("B", none), ("C", none)] 2).length = 2 ∧
    min 2 (List.countP (fun r => r.2.isSome)
      [(("A" : String), some (5 : ℚ)), ("B", none), ("C", none)]) = 1 ∧
    (2 : ℕ) ≠ 1 := by
  exact ⟨rfl, rfl, by decide⟩

/-- C2 amended: topN(table, year, n) returns min(n, total row count) rows:
first the min(n, number of rows with a non-missing year value) rows with
non-missing values, sorted descending by that value with ties kept in
original row order, then missing-valued rows in original order padding the
result up to n.  Every returned row is a row of the table at its recorded
original position. -/
theorem nlargest_spec {α : Type} (rows : List (α × Option ℚ)) (n : ℕ) :
    (nlargest rows n).length = min n rows.length ∧
    (nlargest rows n).countP (fun x => x.2.2.isSome) =
      min n (rows.countP (fun r => r.2.isSome)) ∧
    (nlargest rows n).Pairwise
      (fun a b => ∀ qa qb, a.2.2 = some qa → b.2.2 = some qb → qb ≤ qa) ∧
    (nlargest rows n).Pairwise (fun a b => a.2.2 = b.2.2 → a.1 < b.1) ∧
    (∀ x ∈ nlargest rows n, rows[x.1]? = some x.2) := by
  have hA :
      nlargest rows n =
        (((sortedPresent rows).take n).map (fun x => (x.1, x.2.1, some x.2.2)) ++
          (missings 0 rows).map (fun x => (x.1, x.2, (none : Option ℚ)))).take n := rfl
  have hAlen :
      (((sortedPresent rows).take n).map
        (fun x : ℕ × α × ℚ => (x.1, x.2.1, some x.2.2))).length =
        min n (rows.countP (fun r => r.2.isSome)) := by
    rw [List.length_map, List.length_take, sortedPresent_length]
  have hBlen :
      ((missings 0 rows).map (fun x : ℕ × α => (x.1, x.2, (none : Option ℚ)))).length =
        rows.countP (fun r => r.2.isNone) := by
    rw [List.length_map, missings_length]
  have hPM := countP_isSome_add_isNone rows
  refine ⟨?_, ?_, ?_, ?_, ?_⟩
  · rw [hA, List.length_take, List.length_append, hAlen, hBlen]
    omega
  · rw [hA, List.take_append_eq_append_take, List.countP_append, hAlen]
    have hAtake :
        (((sortedPresent rows).take n).map
          (fun x : ℕ × α × ℚ => (x.1, x.2.1, some x.2.2))).take n =
        ((sortedPresent rows).take n).map (fun x => (x.1, x.2.1, some x.2.2)) :=
      List.take_of_length_le (by rw [hAlen]; exact Nat.min_le_left n _)
    rw [hAtake]
    have hAcount :
        (((sortedPresent rows).take n).map
          (fun x : ℕ × α × ℚ => (x.1, x.2.1, some x.2.2))).countP
            (fun x => x.2.2.isSome) =
        (((sortedPresent rows).take n).map
          (fun x : ℕ × α × ℚ => (x.1, x.2.1, some x.2.2))).length :=
      List.countP_eq_length.mpr (by
        intro x hx
        obtain ⟨y, _, rfl⟩ := List.mem_map.mp hx
        rfl)
    have hBcount :
        (((missings 0 rows).map (fun x : ℕ × α => (x.1, x.2, (none : Option ℚ)))).take
          (n - min n (rows.countP (fun r => r.2.isSome)))).countP
            (fun x => x.2.2.isSome) = 0 :=
      List.countP_eq_zero.mpr (by
        intro x hx
        obtain ⟨y, _, rfl⟩ := List.mem_map.mp (List.mem_of_mem_take hx)
        simp)
    rw [hAcount, hAlen, hBcount]
    omega
  · rw [hA]
    refine List.Pairwise.sublist (List.take_sublist n _) (List.pairwise_append.mpr ⟨?_, ?_, ?_⟩)
    · refine List.pairwise_map.mpr ?_
      refine (List.Pairwise.sublist (List.take_sublist n _) (sortedPresent_pairwise rows)).imp ?_
      rintro x y ⟨hle, _⟩ qa qb h1 h2
      injection h1 with h1
      injection h2 with h2
      rw [← h1, ← h2]
      exact hle
    · refine List.pairwise_map.mpr ?_
      refine (missings_pairwise 0 rows).imp ?_
      intro x y _ qa qb h1 _
      exact absurd h1 (by simp)
    · intro a _ b hb
      obtain ⟨y, _, rfl⟩ := List.mem_map.mp hb
      intro qa qb _ h2
      exact absurd h2 (by simp)
  · rw [hA]
    refine List.Pairwise.sublist (List.take_sublist n _) (List.pairwise_append.mpr ⟨?_, ?_, ?_⟩)
    · refine List.pairwise_map.mpr ?_
      refine (List.Pairwise.sublist (List.take_sublist n _) (sortedPresent_pairwise rows)).imp ?_
      rintro x y ⟨_, htie⟩ h
      injection h with h
      exact htie h
    · refine List.pairwise_map.mpr ?_
      refine (missings_pairwise 0 rows).imp ?_
      intro x y hlt _
      exact hlt
    · intro a ha b hb
      obtain ⟨x, _, rfl⟩ := List.mem_map.mp ha
      obtain ⟨y, _, rfl⟩ := List.mem_map.mp hb
      intro h
      exact absurd h (by simp)
  · intro x hx
    rw [hA] at hx
    rcases List.mem_append.mp (List.mem_of_mem_take hx) with hmem | hmem
    · obtain ⟨y, hy, rfl⟩ := List.mem_map.mp hmem
      exact sortedPresent_mem rows y (List.mem_of_mem_take hy)
    · obtain ⟨y, hy, rfl⟩ := List.mem_map.mp hmem
      simpa using missings_get 0 rows y hy

/-- Witness for C2's amended claim: the returned row count is min of n and
the table's row count on a concrete three-row table. -/
theorem nlargest_spec_witness :
    (nlargest [(("A" : String), some (5 : ℚ)), ("B", some 7), ("C", none)] 2).length =
      min 2 ([(("A" : String), some (5 : ℚ)), ("B", some 7), ("C", none)].length) :=
  (nlargest_spec [(("A" : String), some (5 : ℚ)), ("B", some 7), ("C", none)] 2).1

/-- C6 counterexample: create_world_map, called on the canonical country
table, leaves the table changed — an iso_a3 column has been added in
place (line 385 assigns the derived column onto the passed data frame), so
it is not true that every downstream operation leaves the table's rows and
columns unchanged. -/
theorem create_world_map_mutates_counterexample :
    ((create_world_map true (fun _ => none)
        { cols := ["country"], rows := [[("country", Cell.str "X")]] } 2024).map
      (fun p => p.1.cols)) = Except.ok ["country", "iso_a3"] ∧
    (["country", "iso_a3"] : List String) ≠ ["country"] := by
  exact ⟨rfl, by decide⟩

/-- C6 amended: the only in-place mutation performed by a downstream
operation is create_world_map writing the derived iso_a3 column onto the
country table: the call leaves the row count unchanged, every column other
than iso_a3 present exactly as before, and every cell outside the iso_a3
column unchanged; when the map library is unavailable the table is
untouched.  All other query operations of the embedding (nlargest, column
sums, trend data, statistics) are functions of the table and mutate
nothing. -/
theorem create_world_map_frame (avail : Bool) (fuzzy : String → Option String)
    (df : DF) (year : ℕ) (df' : DF) (res : Option DF)
    (h : create_world_map avail fuzzy df year = Except.ok (df', res)) :
    df'.rows.length = df.rows.length ∧
    (∀ c, c ≠ "iso_a3" → (df'.cols.contains c = df.cols.contains c)) ∧
    (∀ (i : ℕ) (c : String), c ≠ "iso_a3" →
      (df'.rows[i]?.map (fun r => rowCell r c)) = (df.rows[i]?.map (fun r => rowCell r c))) ∧
    (avail = false → df' = df) := by
  cases avail with
  | false =>
    have h' : df = df' ∧ (none : Option DF) = res := by
      simpa [create_world_map] using h
    obtain ⟨h1, _⟩ := h'
    subst h1
    exact ⟨rfl, fun c _ => rfl, fun i c _ => rfl, fun _ => rfl⟩
  | true =>
    by_cases hb : df.hasCol "country"
    · have hdf : df' = df.setCol "iso_a3"
          (fun r => Cell.code (get_iso_a3 true fuzzy (countryOf r))) := by
        unfold create_world_map at h
        by_cases hy : (df.setCol "iso_a3"
            (fun r => Cell.code (get_iso_a3 true fuzzy (countryOf r)))).hasCol (yearCol year) <;>
          simp [hb, hy] at h <;> exact h.1.symm
      subst hdf
      refine ⟨setCol_rows_length df _ _, fun c hc => setCol_contains_ne df _ c _ hc,
        fun i c hc => setCol_rowCell_ne df _ c _ i hc, fun habs => by cases habs⟩
    · exfalso
      unfold create_world_map at h
      simp [hb] at h

/-- Witness for C6's amended claim: on a one-row table the world-map call
preserves the row count. -/
theorem create_world_map_frame_witness :
    (DF.setCol { cols := ["country"], rows := [[("country", Cell.str "X")]] } "iso_a3"
        (fun r => Cell.code (get_iso_a3 true (fun _ => none) (countryOf r)))).rows.length =
      ({ cols := ["country"], rows := [[("country", Cell.str "X")]] } : DF).rows.length :=
  (create_world_map_frame true (fun _ => none)
    { cols := ["country"], rows := [[("country", Cell.str "X")]] } 2024
    (DF.setCol { cols := ["country"], rows := [[("country", Cell.str "X")]] } "iso_a3"
      (fun r => Cell.code (get_iso_a3 true (fun _ => none) (countryOf r)))) none rfl).1

/-- C9 counterexample: with the requested year's column entirely absent
from the table, the bar-chart/table top-N operation and the statistical
summary raise a KeyError (modelled as the error result) instead of
treating the column as all-missing — only the line-chart trend computation
tolerates the absence. -/
theorem absent_year_column_counterexample :
    nlargestOp { cols := ["description", "export_value_2023"],
                 rows := [[("description", Cell.str "A"),
                           ("export_value_2023", Cell.num (some 5))]] }
        "export_value_2024" 10 = Except.error () ∧
    create_stats_summary { cols := ["description", "export_value_2023"],
                           rows := [[("description", Cell.str "A"),
                                     ("export_value_2023", Cell.num (some 5))]] }
        "export_value_2024" = Except.error () := by
  exact ⟨rfl, rfl⟩

/-- C9 amended: the line-chart trend computation treats an absent year
column as a zero total and never fails, while the top-N operation and the
statistical summary fail exactly when the requested column is absent from
the table (their callers guard on column presence before calling). -/
theorem year_column_tolerance (df : DF) (c : String) (n y : ℕ) :
    (df.hasCol (yearCol y) = false → y ∈ years → (y, (0 : ℚ)) ∈ trendData df) ∧
    (df.hasCol c = false → nlargestOp df c n = Except.error ()) ∧
    (df.hasCol c = false → create_stats_summary df c = Except.error ()) ∧
    (df.hasCol c = true →
      nlargestOp df c n = Except.ok (nlargest (df.rows.map (fun r => (r, numCell r c))) n) ∧
      create_stats_summary df c =
        Except.ok (colSum df c, colMean df c, colMax df c, colMin df c)) := by
  refine ⟨?_, ?_, ?_, ?_⟩
  · intro h hy
    have hmem : (y, if df.hasCol (yearCol y) then colSum df (yearCol y) else 0) ∈ trendData df :=
      List.mem_map.mpr ⟨y, hy, rfl⟩
    simpa [h] using hmem
  · intro h; simp [nlargestOp, h]
  · intro h; simp [create_stats_summary, h]
  · intro h
    exact ⟨by simp [nlargestOp, h], by simp [create_stats_summary, h]⟩

/-- Witness for C9's amended claim: a table without the 2024 column yields
the zero trend point for 2024. -/
theorem year_column_tolerance_witness :
    ((2024 : ℕ), (0 : ℚ)) ∈ trendData { cols := ["description"], rows := [] } :=
  (year_column_tolerance { cols := ["description"], rows := [] } "x" 0 2024).1 rfl (by decide)

end ExportDashboard
